import Mathlib

/-
Verification of the PI-controller core of the `pi_thermostat` integration
(`custom_components/pi_thermostat/pi_controller.py`).

Real-valued quantities are modelled as rationals (`ℚ`): every constant
appearing in the claims and tests is a dyadic rational, exactly
representable in both binary floating point and `ℚ`, so the algebraic
structure of the code is preserved faithfully.

The Python module wraps the third-party `simple_pid.PID` engine, whose code
is not part of this repository.  The engine's observable behaviour
(sample-time gating, clamp-then-commit anti-windup, reset, output-limit
handling, integral restoration via `set_auto_mode`) is therefore modelled
from the specification, section 4.2; each such definition carries a
`Modelled from the spec:` note.  The wrapper class `PIController` itself is
translated directly from the repository source.
-/

namespace PiThermostat

/-- Clamp a value into the interval given by a lower and an upper bound.
Modelled from the spec: step 4 and step 6 of `update` clamp to
`[output_min, output_max]`. -/
def clamp (v lo hi : ℚ) : ℚ :=
  max lo (min v hi)

/-- State of the wrapped PID engine.  Modelled from the spec: the
`ControllerState` of section 3 — gains, setpoint, sample time, output
limits, the stored proportional and integral components, the held last
output, and whether an effective update has occurred
(`last_update_time` is abstracted to this flag, since elapsed time is
always supplied explicitly). -/
structure PID where
  Kp : ℚ
  Ki : ℚ
  setpoint : ℚ
  sample_time : ℚ
  output_min : ℚ
  output_max : ℚ
  proportional : ℚ
  integral : ℚ
  lastOutput : ℚ
  hasUpdated : Bool
deriving DecidableEq

/-- Engine construction.  Modelled from the spec: construction validates
`output_min < output_max` (section 7) and initializes
`integral_accumulator = 0`, `last_output = 0` (or `output_min` if
`output_min > 0`), with no effective update recorded yet (section 4.2). -/
def mkPID (kp ki sp st omin omax : ℚ) : Option PID :=
  if omin < omax then
    some ⟨kp, ki, sp, st, omin, omax, 0, 0, if 0 < omin then omin else 0, false⟩
  else
    none

/-- One engine invocation.  Modelled from the spec: if an effective update
has occurred and the elapsed time is below `sample_time`, the previous
output is returned unchanged with no new computation; otherwise steps 1-8
of section 4.2 run (error, proportional term, tentative integral, clamp,
sum, clamp, commit). -/
def PID.call (s : PID) (input dt : ℚ) : ℚ × PID :=
  if s.hasUpdated = true ∧ dt < s.sample_time then
    (s.lastOutput, s)
  else
    let error := s.setpoint - input
    let p := s.Kp * error
    let i := clamp (s.integral + s.Ki * error * dt) s.output_min s.output_max
    let output := clamp (p + i) s.output_min s.output_max
    (output,
      { s with proportional := p, integral := i, lastOutput := output, hasUpdated := true })

/-- Engine reset.  Modelled from the spec: clears the integral accumulator
to 0 (section 4.2 `reset`) and returns the update bookkeeping to its
construction values; gains, setpoint, sample time and limits are
untouched. -/
def PID.resetState (s : PID) : PID :=
  { s with proportional := 0, integral := 0,
           lastOutput := if 0 < s.output_min then s.output_min else 0,
           hasUpdated := false }

/-- Engine output-limit assignment.  Modelled from the spec: replaces the
clamp bounds, validating `output_min < output_max` (section 7); the stored
integral accumulator is NOT proactively re-clamped (section 4.2
`update_output_limits`). -/
def PID.setOutputLimits (s : PID) (lo hi : ℚ) : Option PID :=
  if lo < hi then some { s with output_min := lo, output_max := hi } else none

/-- Engine integral restoration (the `set_auto_mode(False)` /
`set_auto_mode(True, last_output=value)` pair used by the wrapper).
Modelled from the spec: sets `integral_accumulator = value` directly,
without re-clamping against the current output limits (section 4.2
`restore_integral_term`). -/
def PID.restoreIntegral (s : PID) (v : ℚ) : PID :=
  { s with integral := v }

/-- Result of a single PI computation, from `PIResult` in the source. -/
structure PIResult where
  output : ℚ
  deviation : ℚ
  p_term : ℚ
  i_term : ℚ
deriving DecidableEq

/-- The wrapper class `PIController` from the source: the wrapped engine
state plus the cooling flag and the HVAC-unit tuning parameters it
remembers. -/
structure PIController where
  pid : PID
  is_cooling : Bool
  proportional_band : ℚ
  integral_time_min : ℚ
deriving DecidableEq

namespace PIController

/-- `PIController.hvac_to_pid_gains` from the source:
`kp = 100.0 / proportional_band`, `ki = kp / (integral_time_min * 60.0)`.
Python float division raises `ZeroDivisionError` on a zero divisor, which
is modelled as `none`; no other validation is performed by the source. -/
def hvac_to_pid_gains (proportional_band integral_time_min : ℚ) : Option (ℚ × ℚ) :=
  if proportional_band = 0 then none
  else if integral_time_min * 60 = 0 then none
  else some (100 / proportional_band,
             (100 / proportional_band) / (integral_time_min * 60))

/-- `PIController._apply_sign` from the source: cooling mode forces both
gains negative, heating mode forces both positive, via absolute values. -/
def apply_sign (c : PIController) : PIController :=
  if c.is_cooling then
    { c with pid := { c.pid with Kp := -|c.pid.Kp|, Ki := -|c.pid.Ki| } }
  else
    { c with pid := { c.pid with Kp := |c.pid.Kp|, Ki := |c.pid.Ki| } }

/-- `PIController.__init__` from the source: converts HVAC parameters to
gains, constructs the engine, records the mode and tuning parameters, and
applies the sign convention when in cooling mode. -/
def init (pb it omin omax st sp : ℚ) (cool : Bool) : Option PIController :=
  match hvac_to_pid_gains pb it with
  | none => none
  | some g =>
    match mkPID g.1 g.2 sp st omin omax with
    | none => none
    | some p =>
      let c : PIController := ⟨p, cool, pb, it⟩
      some (if cool then apply_sign c else c)

/-- `PIController.update` from the source: runs one engine invocation,
reads the committed proportional and integral components, and computes the
deviation as `setpoint - current_temp`. -/
def update (c : PIController) (current_temp dt : ℚ) : PIResult × PIController :=
  let res := c.pid.call current_temp dt
  (⟨res.1, c.pid.setpoint - current_temp, res.2.proportional, res.2.integral⟩,
   { c with pid := res.2 })

/-- `PIController.set_cooling` from the source: on an actual mode change,
records the new mode, resets the engine and re-applies the sign
convention; otherwise a no-op. -/
def set_cooling (c : PIController) (b : Bool) : PIController :=
  if b ≠ c.is_cooling then
    apply_sign { c with is_cooling := b, pid := c.pid.resetState }
  else
    c

/-- `PIController.set_target` from the source. -/
def set_target (c : PIController) (t : ℚ) : PIController :=
  { c with pid := { c.pid with setpoint := t } }

/-- `PIController.update_tunings` from the source: stores the new HVAC
parameters, recomputes the gains and re-applies the sign convention. -/
def update_tunings (c : PIController) (pb it : ℚ) : Option PIController :=
  match hvac_to_pid_gains pb it with
  | none => none
  | some g =>
    some (apply_sign { c with proportional_band := pb, integral_time_min := it,
                              pid := { c.pid with Kp := g.1, Ki := g.2 } })

/-- `PIController.update_output_limits` from the source: delegates to the
engine's output-limit assignment. -/
def update_output_limits (c : PIController) (lo hi : ℚ) : Option PIController :=
  match c.pid.setOutputLimits lo hi with
  | none => none
  | some p => some { c with pid := p }

/-- `PIController.update_sample_time` from the source. -/
def update_sample_time (c : PIController) (st : ℚ) : PIController :=
  { c with pid := { c.pid with sample_time := st } }

/-- `PIController.get_integral_term` from the source: the engine's stored
integral component. -/
def get_integral_term (c : PIController) : ℚ :=
  c.pid.integral

/-- `PIController.restore_integral_term` from the source: delegates to the
engine's `set_auto_mode` pair. -/
def restore_integral_term (c : PIController) (v : ℚ) : PIController :=
  { c with pid := c.pid.restoreIntegral v }

/-- `PIController.reset` from the source: resets the engine and re-applies
the sign convention. -/
def reset (c : PIController) : PIController :=
  apply_sign { c with pid := c.pid.resetState }

/-- Run a sequence of `update` calls, collecting for each call the
returned result together with the stored integral accumulator immediately
after that call. -/
def runUpdates (c : PIController) : List (ℚ × ℚ) → List (PIResult × ℚ) × PIController
  | [] => ([], c)
  | q :: rest =>
    let step := update c q.1 q.2
    let tail := runUpdates step.2 rest
    ((step.1, get_integral_term step.2) :: tail.1, tail.2)

/-- A controller state within its own output limits: both the stored
integral accumulator and the held last output lie in
`[output_min, output_max]`. -/
def InBounds (c : PIController) : Prop :=
  c.pid.output_min ≤ c.pid.integral ∧ c.pid.integral ≤ c.pid.output_max ∧
  c.pid.output_min ≤ c.pid.lastOutput ∧ c.pid.lastOutput ≤ c.pid.output_max

/-- A controller state whose gain signs agree with its mode: positive
gains in heating mode, negative gains in cooling mode.  Every state
reachable from a construction with positive tuning parameters satisfies
this (construction applies the sign convention and every mutator
re-applies it). -/
def signConsistent (c : PIController) : Prop :=
  if c.is_cooling = true then c.pid.Kp < 0 ∧ c.pid.Ki < 0
  else 0 < c.pid.Kp ∧ 0 < c.pid.Ki

/-- The heating controller of the spec's worked example:
`proportional_band = 4`, `integral_time = 30` min, limits `[0, 100]`,
`sample_time = 60` s, `setpoint = 21`; gains `Kp = 25`, `Ki = 1/72`. -/
def heatCtrl : PIController :=
  ⟨⟨25, 1/72, 21, 60, 0, 100, 0, 0, 0, false⟩, false, 4, 30⟩

/-- The same tuning constructed in cooling mode: both gains negated. -/
def coolCtrl : PIController :=
  ⟨⟨-25, -(1/72), 21, 60, 0, 100, 0, 0, 0, false⟩, true, 4, 30⟩

/-- The worked-example controller with integral 200 restored and the
output limits shrunk to `[0, 50]`: the accumulator 200 survives outside
the new bounds. -/
def shrunkCtrl : PIController :=
  ⟨⟨25, 1/72, 21, 60, 0, 50, 0, 200, 0, false⟩, false, 4, 30⟩

/-- The controller obtained from construction with the negative
proportional band `-1`: no error is raised and `Kp = -100`. -/
def negBandCtrl : PIController :=
  ⟨⟨-100, -(1/18), 21, 60, 0, 100, 0, 0, 0, false⟩, false, -1, 30⟩

end PIController

namespace PIController

/-! ### Basic lemmas about the operations -/

theorem clamp_mem (v lo hi : ℚ) (h : lo ≤ hi) : lo ≤ clamp v lo hi ∧ clamp v lo hi ≤ hi :=
  ⟨le_max_left _ _, max_le h (min_le_right _ _)⟩

@[simp] theorem apply_sign_output_min (c : PIController) :
    (apply_sign c).pid.output_min = c.pid.output_min := by
  unfold apply_sign; split <;> rfl

@[simp] theorem apply_sign_output_max (c : PIController) :
    (apply_sign c).pid.output_max = c.pid.output_max := by
  unfold apply_sign; split <;> rfl

@[simp] theorem apply_sign_hasUpdated (c : PIController) :
    (apply_sign c).pid.hasUpdated = c.pid.hasUpdated := by
  unfold apply_sign; split <;> rfl

@[simp] theorem apply_sign_integral (c : PIController) :
    (apply_sign c).pid.integral = c.pid.integral := by
  unfold apply_sign; split <;> rfl

@[simp] theorem apply_sign_lastOutput (c : PIController) :
    (apply_sign c).pid.lastOutput = c.pid.lastOutput := by
  unfold apply_sign; split <;> rfl

@[simp] theorem apply_sign_sample_time (c : PIController) :
    (apply_sign c).pid.sample_time = c.pid.sample_time := by
  unfold apply_sign; split <;> rfl

@[simp] theorem apply_sign_setpoint (c : PIController) :
    (apply_sign c).pid.setpoint = c.pid.setpoint := by
  unfold apply_sign; split <;> rfl

@[simp] theorem apply_sign_is_cooling (c : PIController) :
    (apply_sign c).is_cooling = c.is_cooling := by
  unfold apply_sign; split <;> rfl

theorem hvac_to_pid_gains_eq (pb it : ℚ) (hpb : pb ≠ 0) (hit : it ≠ 0) :
    hvac_to_pid_gains pb it = some (100 / pb, (100 / pb) / (it * 60)) := by
  simp [hvac_to_pid_gains, hpb, mul_ne_zero hit (by norm_num : (60:ℚ) ≠ 0)]

theorem init_heat_eq (pb it omin omax st sp : ℚ) (hpb : pb ≠ 0) (hit : it ≠ 0)
    (hlim : omin < omax) :
    init pb it omin omax st sp false =
      some ⟨⟨100 / pb, (100 / pb) / (it * 60), sp, st, omin, omax, 0, 0,
            if 0 < omin then omin else 0, false⟩, false, pb, it⟩ := by
  rw [init, hvac_to_pid_gains_eq pb it hpb hit]
  simp [mkPID, hlim]

theorem init_cool_eq (pb it omin omax st sp : ℚ) (hpb : pb ≠ 0) (hit : it ≠ 0)
    (hlim : omin < omax) :
    init pb it omin omax st sp true =
      some ⟨⟨-|100 / pb|, -|(100 / pb) / (it * 60)|, sp, st, omin, omax, 0, 0,
            if 0 < omin then omin else 0, false⟩, true, pb, it⟩ := by
  rw [init, hvac_to_pid_gains_eq pb it hpb hit]
  simp [mkPID, hlim, apply_sign]

theorem init_state (pb it omin omax st sp : ℚ) (cool : Bool) (c : PIController)
    (h : init pb it omin omax st sp cool = some c) :
    c.pid.output_min = omin ∧ c.pid.output_max = omax ∧
    c.pid.hasUpdated = false ∧ omin < omax := by
  by_cases hpb : pb = 0
  · simp [init, hvac_to_pid_gains, hpb] at h
  by_cases hit : it * 60 = 0
  · simp [init, hvac_to_pid_gains, hpb, hit] at h
  by_cases hlim : omin < omax
  · rw [init] at h
    simp only [hvac_to_pid_gains, hpb, hit, if_false, mkPID, hlim, if_true, if_pos] at h
    cases cool
    all_goals
      simp only [Bool.false_eq_true, if_false, if_true, Option.some.injEq] at h
      subst h
      simp [hlim]
  · rw [init] at h
    simp [hvac_to_pid_gains, hpb, hit, mkPID, hlim] at h

/-! ### Behaviour of `update` -/

/-- Gated call: with an effective update on record and an elapsed time below
the sample time, `update` returns the held output and leaves the state
unchanged. -/
theorem update_gated (c : PIController) (t dt : ℚ)
    (h : c.pid.hasUpdated = true) (hdt : dt < c.pid.sample_time) :
    (update c t dt).1.output = c.pid.lastOutput ∧ (update c t dt).2 = c := by
  simp [update, PID.call, h, hdt]

/-- The output returned by `update` is always the held output of the
post-state. -/
theorem update_output_eq_lastOutput (c : PIController) (t dt : ℚ) :
    (update c t dt).1.output = (update c t dt).2.pid.lastOutput := by
  by_cases hg : c.pid.hasUpdated = true ∧ dt < c.pid.sample_time
  · simp [update, PID.call, hg.1, hg.2]
  · simp [update, PID.call, hg]

@[simp] theorem update_sample_time_eq (c : PIController) (t dt : ℚ) :
    (update c t dt).2.pid.sample_time = c.pid.sample_time := by
  by_cases hg : c.pid.hasUpdated = true ∧ dt < c.pid.sample_time
  · simp [update, PID.call, hg.1, hg.2]
  · simp [update, PID.call, hg]

@[simp] theorem update_output_min_eq (c : PIController) (t dt : ℚ) :
    (update c t dt).2.pid.output_min = c.pid.output_min := by
  by_cases hg : c.pid.hasUpdated = true ∧ dt < c.pid.sample_time
  · simp [update, PID.call, hg.1, hg.2]
  · simp [update, PID.call, hg]

@[simp] theorem update_output_max_eq (c : PIController) (t dt : ℚ) :
    (update c t dt).2.pid.output_max = c.pid.output_max := by
  by_cases hg : c.pid.hasUpdated = true ∧ dt < c.pid.sample_time
  · simp [update, PID.call, hg.1, hg.2]
  · simp [update, PID.call, hg]

theorem update_hasUpdated (c : PIController) (t dt : ℚ) (h : c.pid.hasUpdated = true) :
    (update c t dt).2.pid.hasUpdated = true := by
  by_cases hg : c.pid.hasUpdated = true ∧ dt < c.pid.sample_time
  · simp [update, PID.call, hg.1, hg.2, h]
  · simp [update, PID.call, hg]

theorem update_invariant (c : PIController) (t dt : ℚ)
    (hle : c.pid.output_min ≤ c.pid.output_max)
    (hinv : c.pid.hasUpdated = true → InBounds c) :
    InBounds (update c t dt).2 ∧
    c.pid.output_min ≤ (update c t dt).1.output ∧
    (update c t dt).1.output ≤ c.pid.output_max := by
  by_cases hg : c.pid.hasUpdated = true ∧ dt < c.pid.sample_time
  · obtain ⟨h1, h2, h3, h4⟩ := hinv hg.1
    constructor
    · simpa [update, PID.call, hg.1, hg.2, InBounds] using ⟨h1, h2, h3, h4⟩
    · simpa [update, PID.call, hg.1, hg.2] using ⟨h3, h4⟩
  · obtain ⟨hi1, hi2⟩ := clamp_mem (c.pid.integral + c.pid.Ki * (c.pid.setpoint - t) * dt)
      c.pid.output_min c.pid.output_max hle
    obtain ⟨ho1, ho2⟩ := clamp_mem
      (c.pid.Kp * (c.pid.setpoint - t) +
        clamp (c.pid.integral + c.pid.Ki * (c.pid.setpoint - t) * dt)
          c.pid.output_min c.pid.output_max)
      c.pid.output_min c.pid.output_max hle
    constructor
    · simpa [update, PID.call, hg, InBounds] using ⟨hi1, hi2, ho1, ho2⟩
    · simpa [update, PID.call, hg] using ⟨ho1, ho2⟩

theorem runUpdates_bounds (calls : List (ℚ × ℚ)) : ∀ c : PIController,
    c.pid.output_min ≤ c.pid.output_max →
    (c.pid.hasUpdated = true → InBounds c) →
    ∀ pr ∈ (runUpdates c calls).1,
      (c.pid.output_min ≤ pr.1.output ∧ pr.1.output ≤ c.pid.output_max) ∧
      (c.pid.output_min ≤ pr.2 ∧ pr.2 ≤ c.pid.output_max) := by
  induction calls with
  | nil => intro c _ _ pr hpr; simp [runUpdates] at hpr
  | cons q rest ih =>
    intro c hle hinv pr hpr
    obtain ⟨hinb, ho1, ho2⟩ := update_invariant c q.1 q.2 hle hinv
    simp only [runUpdates, List.mem_cons] at hpr
    rcases hpr with h | h
    · subst h
      refine ⟨⟨ho1, ho2⟩, ?_, ?_⟩
      · simpa [get_integral_term] using hinb.1
      · simpa [get_integral_term] using hinb.2.1
    · have hrec := ih (update c q.1 q.2).2
        (by simpa using hle) (fun _ => hinb) pr h
      simpa using hrec

theorem init_heatCtrl : init 4 30 0 100 60 21 false = some heatCtrl := by
  rw [init_heat_eq 4 30 0 100 60 21 (by norm_num) (by norm_num) (by norm_num)]
  norm_num [heatCtrl]

theorem init_coolCtrl : init 4 30 0 100 60 21 true = some coolCtrl := by
  rw [init_cool_eq 4 30 0 100 60 21 (by norm_num) (by norm_num) (by norm_num)]
  norm_num [coolCtrl, abs_of_pos]

/-! ### Claims -/

/-- C2: for all `pb > 0` and `it > 0` the gain conversion returns
`kp = 100/pb` and `ki = kp/(it*60)`; both are strictly positive, `kp`
strictly decreases as `pb` increases, and `ki` strictly decreases as `it`
increases. -/
theorem C2_gain_conversion (pb it pb2 it2 : ℚ) (hpb : 0 < pb) (hit : 0 < it) :
    hvac_to_pid_gains pb it = some (100 / pb, (100 / pb) / (it * 60)) ∧
    (0 < 100 / pb ∧ 0 < (100 / pb) / (it * 60)) ∧
    (pb < pb2 → 100 / pb2 < 100 / pb) ∧
    (it < it2 → (100 / pb) / (it2 * 60) < (100 / pb) / (it * 60)) := by
  have hkp : (0:ℚ) < 100 / pb := div_pos (by norm_num) hpb
  have h60 : (0:ℚ) < it * 60 := by positivity
  refine ⟨hvac_to_pid_gains_eq pb it hpb.ne' hit.ne', ⟨hkp, div_pos hkp h60⟩, ?_, ?_⟩
  · intro hlt
    exact div_lt_div_of_pos_left (by norm_num) hpb hlt
  · intro hlt
    exact div_lt_div_of_pos_left hkp h60 (by nlinarith)

/-- Witness for C2 at `pb = 4`, `it = 30`, `pb2 = 5`, `it2 = 40`. -/
theorem C2_gain_conversion_witness :
    ((0:ℚ) < 4 ∧ (0:ℚ) < 30) ∧
    (hvac_to_pid_gains 4 30 = some (100 / 4, (100 / 4) / (30 * 60)) ∧
     (0 < (100:ℚ) / 4 ∧ 0 < ((100:ℚ) / 4) / (30 * 60)) ∧
     ((4:ℚ) < 5 → (100:ℚ) / 5 < (100:ℚ) / 4) ∧
     ((30:ℚ) < 40 → ((100:ℚ) / 4) / (40 * 60) < ((100:ℚ) / 4) / (30 * 60))) :=
  ⟨⟨by norm_num, by norm_num⟩, C2_gain_conversion 4 30 5 40 (by norm_num) (by norm_num)⟩

/-- C3: for the same positive tuning, heating construction yields a
strictly positive `Kp`, cooling construction a strictly negative `Kp` of
identical absolute magnitude, and the deviation returned by `update` is
always `setpoint - current_value`, never sign-flipped. -/
theorem C3_sign_convention (pb it omin omax st sp : ℚ) (ch cc : PIController)
    (hpb : 0 < pb) (hit : 0 < it)
    (hh : init pb it omin omax st sp false = some ch)
    (hc : init pb it omin omax st sp true = some cc) :
    (0 < ch.pid.Kp ∧ cc.pid.Kp < 0 ∧ |cc.pid.Kp| = |ch.pid.Kp|) ∧
    (∀ (c : PIController) (t dt : ℚ), (update c t dt).1.deviation = c.pid.setpoint - t) := by
  have hlim := (init_state pb it omin omax st sp false ch hh).2.2.2
  rw [init_heat_eq pb it omin omax st sp hpb.ne' hit.ne' hlim] at hh
  rw [init_cool_eq pb it omin omax st sp hpb.ne' hit.ne' hlim] at hc
  injection hh with hh
  injection hc with hc
  subst hh
  subst hc
  have hkp : (0:ℚ) < 100 / pb := div_pos (by norm_num) hpb
  refine ⟨⟨hkp, ?_, ?_⟩, fun c t dt => rfl⟩
  · simpa using abs_pos.mpr hkp.ne'
  · simp

/-- Witness for C3 at the worked-example tuning. -/
theorem C3_sign_convention_witness :
    ((0:ℚ) < 4 ∧ (0:ℚ) < 30 ∧
     init 4 30 0 100 60 21 false = some heatCtrl ∧
     init 4 30 0 100 60 21 true = some coolCtrl) ∧
    ((0 < heatCtrl.pid.Kp ∧ coolCtrl.pid.Kp < 0 ∧ |coolCtrl.pid.Kp| = |heatCtrl.pid.Kp|) ∧
     (∀ (c : PIController) (t dt : ℚ), (update c t dt).1.deviation = c.pid.setpoint - t)) :=
  ⟨⟨by norm_num, by norm_num, init_heatCtrl, init_coolCtrl⟩,
   C3_sign_convention 4 30 0 100 60 21 heatCtrl coolCtrl (by norm_num) (by norm_num)
     init_heatCtrl init_coolCtrl⟩

/-- C6 counterexample: on the freshly constructed worked-example heating
controller, the first `update(18, 60)` returns output `155/2 = 77.5`,
not `100`: the proportional term is 75 and the integral contribution only
`2.5`, so no clamping occurs. -/
theorem C6_counterexample :
    init 4 30 0 100 60 21 false = some heatCtrl ∧
    (update heatCtrl 18 60).1.output ≠ 100 :=
  ⟨init_heatCtrl, by norm_num [update, PID.call, clamp, heatCtrl, min_def, max_def]⟩

/-- C6 amended: the first `update(18, 60)` on the worked-example heating
controller returns deviation 3, proportional term 75, integral term `5/2`,
and output `155/2 = 77.5 = 75 + 2.5`, which lies inside `[0, 100]` and is
therefore not clamped. -/
theorem C6_first_update_values :
    init 4 30 0 100 60 21 false = some heatCtrl ∧
    (update heatCtrl 18 60).1 = ⟨155/2, 3, 75, 5/2⟩ ∧
    ((155:ℚ)/2 = 75 + 5/2 ∧ (0:ℚ) ≤ 155/2 ∧ (155:ℚ)/2 ≤ 100) :=
  ⟨init_heatCtrl,
   by norm_num [update, PID.call, clamp, heatCtrl, min_def, max_def, PIResult.mk.injEq],
   by norm_num⟩

/-- C7: `restore_integral_term` stores exactly the given value, for every
controller state and every value, with no re-clamping against the output
limits; `get_integral_term` immediately afterwards returns it. -/
theorem C7_restore_integral_exact (c : PIController) (v : ℚ) :
    get_integral_term (restore_integral_term c v) = v := rfl

/-- C8: changing the output limits succeeds without touching the stored
integral accumulator, even when the old accumulator lies outside the new
bounds; only the next `update` re-clamps it. -/
theorem C8_limits_preserve_integral (c c' : PIController) (lo hi : ℚ)
    (h : update_output_limits c lo hi = some c') :
    get_integral_term c' = get_integral_term c := by
  unfold update_output_limits PID.setOutputLimits at h
  by_cases hlim : lo < hi
  · simp only [hlim, if_true, Option.some.injEq] at h
    subst h
    rfl
  · simp [hlim] at h

/-- Witness for C8: restoring integral 200 and then shrinking the limits
to `[0, 50]` leaves `get_integral_term` at 200, outside the new bounds. -/
theorem C8_limits_preserve_integral_witness :
    update_output_limits (restore_integral_term heatCtrl 200) 0 50 = some shrunkCtrl ∧
    get_integral_term (restore_integral_term heatCtrl 200) = 200 ∧
    ¬(get_integral_term (restore_integral_term heatCtrl 200) ≤ 50) ∧
    get_integral_term shrunkCtrl = get_integral_term (restore_integral_term heatCtrl 200) := by
  have hupd : update_output_limits (restore_integral_term heatCtrl 200) 0 50 = some shrunkCtrl := by
    norm_num [update_output_limits, PID.setOutputLimits, restore_integral_term,
      PID.restoreIntegral, heatCtrl, shrunkCtrl]
  refine ⟨hupd, by norm_num [get_integral_term, restore_integral_term, PID.restoreIntegral],
    by norm_num [get_integral_term, restore_integral_term, PID.restoreIntegral],
    C8_limits_preserve_integral (restore_integral_term heatCtrl 200) shrunkCtrl 0 50 hupd⟩

/-- C9 counterexample: construction with `proportional_band = -1 ≤ 0`
does NOT fail: it succeeds silently and stores the negative gain
`Kp = -100`. -/
theorem C9_counterexample :
    init (-1) 30 0 100 60 21 false = some negBandCtrl ∧ negBandCtrl.pid.Kp < 0 := by
  constructor
  · rw [init_heat_eq (-1) 30 0 100 60 21 (by norm_num) (by norm_num) (by norm_num)]
    norm_num [negBandCtrl]
  · norm_num [negBandCtrl]

/-- C9 amended: construction fails exactly when `proportional_band = 0`,
`integral_time = 0` (division by zero) or `output_min ≥ output_max`;
`update_tunings` fails exactly for the zero parameters and
`update_output_limits` exactly for `output_min ≥ output_max`.  Strictly
negative `proportional_band` or `integral_time` are accepted without any
error. -/
theorem C9_validation_exact (pb it omin omax st sp : ℚ) (cool : Bool) :
    (init pb it omin omax st sp cool = none ↔ (pb = 0 ∨ it = 0 ∨ omax ≤ omin)) ∧
    (∀ c : PIController, update_tunings c pb it = none ↔ (pb = 0 ∨ it = 0)) ∧
    (∀ (c : PIController) (lo hi : ℚ), update_output_limits c lo hi = none ↔ hi ≤ lo) := by
  refine ⟨?_, ?_, ?_⟩
  · by_cases hpb : pb = 0
    · simp [init, hvac_to_pid_gains, hpb]
    by_cases hit : it = 0
    · simp [init, hvac_to_pid_gains, hpb, hit]
    by_cases hlim : omin < omax
    · cases cool <;>
        norm_num [init, hvac_to_pid_gains, mkPID, hpb, hit, hlim, not_le.mpr hlim] <;>
        exact Option.some_ne_none _
    · norm_num [init, hvac_to_pid_gains, mkPID, hpb, hit, hlim, not_lt.mp hlim]
  · intro c
    by_cases hpb : pb = 0
    · simp [update_tunings, hvac_to_pid_gains, hpb]
    by_cases hit : it = 0
    · simp [update_tunings, hvac_to_pid_gains, hpb, hit]
    · norm_num [update_tunings, hvac_to_pid_gains, hpb, hit]
      exact Option.some_ne_none _
  · intro c lo hi
    by_cases hlim : lo < hi
    · simp [update_output_limits, PID.setOutputLimits, hlim, not_le.mpr hlim]
    · simp [update_output_limits, PID.setOutputLimits, hlim, not_lt.mp hlim]

/-- C10 counterexample: on a state whose held output is `155/2`, after
`restore_integral_term 5` a gated `update` (elapsed 1 s < 60 s) returns
the old held output `155/2`, not the restored value 5. -/
theorem C10_counterexample :
    (update heatCtrl 18 60).2.pid.hasUpdated = true ∧
    (1:ℚ) < (update heatCtrl 18 60).2.pid.sample_time ∧
    (update (restore_integral_term (update heatCtrl 18 60).2 5) 18 1).1.output = 155/2 ∧
    (155/2 : ℚ) ≠ 5 := by
  norm_num [update, PID.call, restore_integral_term, PID.restoreIntegral, heatCtrl,
    clamp, min_def, max_def]

/-- C10 amended: `restore_integral_term` leaves the held last output
unchanged, so a following gated `update` (after at least one effective
update, elapsed time below the sample time) returns the previously held
output, unaffected by the restored value. -/
theorem C10_restore_keeps_lastOutput (c : PIController) (v t dt : ℚ)
    (h : c.pid.hasUpdated = true) (hdt : dt < c.pid.sample_time) :
    (restore_integral_term c v).pid.lastOutput = c.pid.lastOutput ∧
    (update (restore_integral_term c v) t dt).1.output = c.pid.lastOutput :=
  ⟨rfl, (update_gated (restore_integral_term c v) t dt h hdt).1⟩

/-- Witness for C10's amended statement at the worked-example state. -/
theorem C10_restore_keeps_lastOutput_witness :
    ((update heatCtrl 18 60).2.pid.hasUpdated = true ∧
     (1:ℚ) < (update heatCtrl 18 60).2.pid.sample_time) ∧
    ((restore_integral_term (update heatCtrl 18 60).2 5).pid.lastOutput =
       (update heatCtrl 18 60).2.pid.lastOutput ∧
     (update (restore_integral_term (update heatCtrl 18 60).2 5) 18 1).1.output =
       (update heatCtrl 18 60).2.pid.lastOutput) := by
  have h1 : (update heatCtrl 18 60).2.pid.hasUpdated = true := by
    norm_num [update, PID.call, heatCtrl]
  have h2 : (1:ℚ) < (update heatCtrl 18 60).2.pid.sample_time := by
    norm_num [update, PID.call, heatCtrl]
  exact ⟨⟨h1, h2⟩, C10_restore_keeps_lastOutput (update heatCtrl 18 60).2 5 18 1 h1 h2⟩

/-- C5: on a sign-consistent state, `set_cooling b` with `b` equal to the
current mode is a no-op leaving the whole state unchanged; with `b`
different it flips the sign of both gains and resets the integral
accumulator to 0. -/
theorem C5_set_cooling (c : PIController) (b : Bool) (hsc : signConsistent c) :
    (b = c.is_cooling → set_cooling c b = c) ∧
    (b ≠ c.is_cooling →
      (set_cooling c b).is_cooling = b ∧
      (set_cooling c b).pid.Kp = -c.pid.Kp ∧
      (set_cooling c b).pid.Ki = -c.pid.Ki ∧
      get_integral_term (set_cooling c b) = 0) := by
  constructor
  · intro hb
    simp [set_cooling, hb]
  · intro hb
    cases b <;> cases hcb : c.is_cooling <;> simp [hcb] at hb hsc ⊢ <;>
      simp_all [set_cooling, apply_sign, signConsistent, get_integral_term,
        PID.resetState, hcb, abs_of_pos, abs_of_neg]

/-- Witness for C5: switching the worked-example heating controller to
cooling mode. -/
theorem C5_set_cooling_witness :
    signConsistent heatCtrl ∧
    ((true = heatCtrl.is_cooling → set_cooling heatCtrl true = heatCtrl) ∧
     (true ≠ heatCtrl.is_cooling →
       (set_cooling heatCtrl true).is_cooling = true ∧
       (set_cooling heatCtrl true).pid.Kp = -heatCtrl.pid.Kp ∧
       (set_cooling heatCtrl true).pid.Ki = -heatCtrl.pid.Ki ∧
       get_integral_term (set_cooling heatCtrl true) = 0)) := by
  have hsc : signConsistent heatCtrl := by norm_num [signConsistent, heatCtrl]
  exact ⟨hsc, C5_set_cooling heatCtrl true hsc⟩

/-- C4: once at least one effective update has occurred, a second `update`
whose elapsed time is below the sample time returns exactly the first
call's output and commits no new computation (the state is unchanged);
and calls separated by at least the sample time may produce a different
output, as the two consecutive 60-second updates of the worked example
show. -/
theorem C4_sample_time_gating (c : PIController) (t1 dt1 t2 dt2 : ℚ)
    (h : c.pid.hasUpdated = true) (hdt : dt2 < c.pid.sample_time) :
    ((update (update c t1 dt1).2 t2 dt2).1.output = (update c t1 dt1).1.output ∧
     (update (update c t1 dt1).2 t2 dt2).2 = (update c t1 dt1).2) ∧
    (update (update heatCtrl 18 60).2 18 60).1.output ≠ (update heatCtrl 18 60).1.output := by
  constructor
  · have h1 : (update c t1 dt1).2.pid.hasUpdated = true := update_hasUpdated c t1 dt1 h
    have h2 : dt2 < (update c t1 dt1).2.pid.sample_time := by
      rw [update_sample_time_eq]; exact hdt
    obtain ⟨ho, hs⟩ := update_gated (update c t1 dt1).2 t2 dt2 h1 h2
    exact ⟨by rw [ho, update_output_eq_lastOutput], hs⟩
  · norm_num [update, PID.call, clamp, heatCtrl, min_def, max_def]

/-- Witness for C4: the worked-example controller after one effective
update, probed with a 30-second (gated) second call. -/
theorem C4_sample_time_gating_witness :
    ((update heatCtrl 18 60).2.pid.hasUpdated = true ∧
     (30:ℚ) < (update heatCtrl 18 60).2.pid.sample_time) ∧
    (((update (update (update heatCtrl 18 60).2 19 60).2 20 30).1.output =
        (update (update heatCtrl 18 60).2 19 60).1.output ∧
      (update (update (update heatCtrl 18 60).2 19 60).2 20 30).2 =
        (update (update heatCtrl 18 60).2 19 60).2) ∧
     (update (update heatCtrl 18 60).2 18 60).1.output ≠ (update heatCtrl 18 60).1.output) := by
  have h1 : (update heatCtrl 18 60).2.pid.hasUpdated = true := by
    norm_num [update, PID.call, heatCtrl]
  have h2 : (30:ℚ) < (update heatCtrl 18 60).2.pid.sample_time := by
    norm_num [update, PID.call, heatCtrl]
  exact ⟨⟨h1, h2⟩, C4_sample_time_gating (update heatCtrl 18 60).2 19 60 20 30 h1 h2⟩

/-- C1: from any successful construction, along any sequence of `update`
calls (arbitrary temperatures and elapsed times), every returned output
lies in `[output_min, output_max]`, and the stored integral accumulator
reported by `get_integral_term` after each call also lies in
`[output_min, output_max]`. -/
theorem C1_update_outputs_clamped (pb it omin omax st sp : ℚ) (cool : Bool)
    (c : PIController) (hinit : init pb it omin omax st sp cool = some c)
    (calls : List (ℚ × ℚ)) :
    ∀ pr ∈ (runUpdates c calls).1,
      (omin ≤ pr.1.output ∧ pr.1.output ≤ omax) ∧ (omin ≤ pr.2 ∧ pr.2 ≤ omax) := by
  obtain ⟨hmin, hmax, hupd, hlim⟩ := init_state pb it omin omax st sp cool c hinit
  intro pr hpr
  have hb := runUpdates_bounds calls c (by rw [hmin, hmax]; exact hlim.le)
    (by intro hu; rw [hupd] at hu; cases hu) pr hpr
  rwa [hmin, hmax] at hb

/-- Witness for C1: the worked-example controller run through three
updates, one of them gated and one driving the output into saturation. -/
theorem C1_update_outputs_clamped_witness :
    init 4 30 0 100 60 21 false = some heatCtrl ∧
    ∀ pr ∈ (runUpdates heatCtrl [(18, 60), (18, 30), (5, 60)]).1,
      ((0:ℚ) ≤ pr.1.output ∧ pr.1.output ≤ 100) ∧ ((0:ℚ) ≤ pr.2 ∧ pr.2 ≤ 100) :=
  ⟨init_heatCtrl,
   C1_update_outputs_clamped 4 30 0 100 60 21 false heatCtrl init_heatCtrl
     [(18, 60), (18, 30), (5, 60)]⟩

end PIController

end PiThermostat
